import Mathlib

/-!
# throughput-ftd: workload generator and CoAP resource handlers

A shallow embedding of `components/workload/server.c`,
`components/workload/periodic.c`, `components/workload/aperiodic.c` and the
client loop of `main/esp_ot_cli.c`.

Calls into OpenThread, FreeRTOS and the logging platform are recorded as
events of a trace, in program order; the values those collaborators return are
supplied by an explicit environment, so every statement quantifies over all
behaviours of the collaborators.
-/

namespace ThroughputFtd

/-! ## server.c -/

/-- OpenThread error codes; `OT_ERROR_NONE` is zero, every other value is a failure. -/
abbrev otError := Nat

/-- The success code of OpenThread. -/
def OT_ERROR_NONE : otError := 0

/-- An IPv6 address, sixteen octets in OpenThread, kept abstract as a number. -/
abbrev otIp6Address := Nat

/-- The fields of `otMessageInfo` the handlers read: the local socket address and
the address of the peer. -/
structure otMessageInfo where
  mSockAddr : otIp6Address
  mPeerAddr : otIp6Address
  mPeerPort : Nat
  deriving DecidableEq, Repr

/-- A message buffer owned by OpenThread: its identity, its total length and the
offset of the payload, as the accessors report them. -/
structure otMessage where
  handle : Nat
  mLength : Nat
  mOffset : Nat
  deriving DecidableEq, Repr

/-- CoAP message types used by the handlers. -/
inductive otCoapType where
  | OT_COAP_TYPE_ACKNOWLEDGMENT
  | OT_COAP_TYPE_OTHER
  deriving DecidableEq, Repr

/-- CoAP response codes used by the handlers. -/
inductive otCoapCode where
  | OT_COAP_CODE_VALID
  | OT_COAP_CODE_OTHER
  deriving DecidableEq, Repr

/-- The collaborators of `server.c`: address formatting, allocation of a response
buffer (`none` is the null pointer), and the error codes returned by response
initialisation and by response send. -/
structure Transport where
  otIp6AddressToString : otIp6Address → String
  otCoapNewMessage : Option Nat
  otCoapMessageInitResponse : Option Nat → otMessage → otCoapType → otCoapCode → otError
  otCoapSendResponse : Option Nat → otMessageInfo → otError

/-- Calls made by the server code, in program order. -/
inductive Event where
  | otLogNotePlat (line : String)
  | otLogCritPlat (line : String)
  | otCoapNewMessage
  | otCoapMessageInitResponse (aResponse : Option Nat) (aRequest : otMessage)
      (aType : otCoapType) (aCode : otCoapCode)
  | otCoapSendResponse (aResponse : Option Nat) (aMessageInfo : otMessageInfo)
  deriving DecidableEq, Repr

/-- Value of `otMessageGetLength`, an unsigned 16-bit integer. -/
def otMessageGetLength (aMessage : otMessage) : Nat := aMessage.mLength % 2 ^ 16

/-- Value of `otMessageGetOffset`, an unsigned 16-bit integer. -/
def otMessageGetOffset (aMessage : otMessage) : Nat := aMessage.mOffset % 2 ^ 16

/-- Conversion to `uint32_t`. -/
def toUInt32 (n : Nat) : Nat := n % 2 ^ 32

/-- The text `sprintf` produces for a `PRIu32` conversion without flags. -/
def formatPRIu32 (n : Nat) : String := Nat.repr n

/-- The function `getSockAddrString`: formats the `mSockAddr` field of the message
info into the caller's buffer. -/
def getSockAddrString (T : Transport) (aMessageInfo : otMessageInfo) : String :=
  T.otIp6AddressToString aMessageInfo.mSockAddr

/-- The function `printCoapRequest`: fills `output` with the summary line and hands
that buffer to the note-level log. Returns the buffer and the calls made. -/
def printCoapRequest (payloadLen : Nat) (ipString : String) : String × List Event :=
  let output := "Received " ++ formatPRIu32 (toUInt32 payloadLen) ++ " bytes from "
    ++ ipString ++ "."
  (output, [Event.otLogNotePlat output])

/-- The function `getPayloadLength`: both operands are promoted to `int`, subtracted,
and the difference is converted to `uint16_t`. -/
def getPayloadLength (aMessage : otMessage) : Nat :=
  Int.toNat (((otMessageGetLength aMessage : Int) - (otMessageGetOffset aMessage : Int))
    % 2 ^ 16)

/-- The function `sendCoapResponse`, as the list of calls it makes. -/
def sendCoapResponse (T : Transport) (aRequest : otMessage)
    (aMessageInfo : otMessageInfo) : List Event :=
  let aResponse := T.otCoapNewMessage
  let error := T.otCoapMessageInitResponse aResponse aRequest
    otCoapType.OT_COAP_TYPE_ACKNOWLEDGMENT otCoapCode.OT_COAP_CODE_VALID
  let initCalls := [Event.otCoapNewMessage,
    Event.otCoapMessageInitResponse aResponse aRequest
      otCoapType.OT_COAP_TYPE_ACKNOWLEDGMENT otCoapCode.OT_COAP_CODE_VALID]
  let initLog := if error ≠ OT_ERROR_NONE then
    [Event.otLogCritPlat "Failed to create a CoAP response."] else []
  let error := T.otCoapSendResponse aResponse aMessageInfo
  let sendCalls := [Event.otCoapSendResponse aResponse aMessageInfo]
  let sendLog := if error ≠ OT_ERROR_NONE then
    [Event.otLogCritPlat "Failed to send a CoAP response."] else []
  initCalls ++ initLog ++ sendCalls ++ sendLog

/-- The function `periodicRequestHandler`, as the list of calls it makes. -/
def periodicRequestHandler (T : Transport) (aMessage : otMessage)
    (aMessageInfo : otMessageInfo) : List Event :=
  let length := toUInt32 (getPayloadLength aMessage)
  let senderAddress := getSockAddrString T aMessageInfo
  let printed := printCoapRequest length senderAddress
  printed.2 ++ sendCoapResponse T aMessage aMessageInfo

/-- Identity of a request handler stored in a resource. -/
inductive otCoapRequestHandler where
  | periodicRequestHandler
  | unknown (address : Nat)
  deriving DecidableEq, Repr

/-- A CoAP resource record. Each field holds whatever the memory of the record
holds; `none` is the null pointer. -/
structure otCoapResource where
  mUriPath : Option String
  mHandler : Option otCoapRequestHandler
  mContext : Option Nat
  mNext : Option Nat
  deriving DecidableEq, Repr

/-- The function `createPeriodicResource`: the record after the call and the
returned error code. -/
def createPeriodicResource (periodic : otCoapResource) : otCoapResource × otError :=
  let periodic := { periodic with mNext := none }
  let periodic := { periodic with mContext := none }
  let periodic := { periodic with mUriPath := some "periodic" }
  let periodic := { periodic with
    mHandler := some otCoapRequestHandler.periodicRequestHandler }
  (periodic, OT_ERROR_NONE)

/-- The function `createAPeriodicResource`: its definition takes no parameter and
has an empty body, so the record the caller passes is returned as it was. -/
def createAPeriodicResource (aPeriodicResource : otCoapResource) :
    otCoapResource × otError :=
  (aPeriodicResource, OT_ERROR_NONE)

/-- Whether the event is a response send. -/
def Event.isSendResponse : Event → Bool
  | Event.otCoapSendResponse _ _ => true
  | _ => false

/-- Whether the event is a note-level log call. -/
def Event.isLogNote : Event → Bool
  | Event.otLogNotePlat _ => true
  | _ => false

/-- Whether the event is a response initialisation. -/
def Event.isInitResponse : Event → Bool
  | Event.otCoapMessageInitResponse _ _ _ _ => true
  | _ => false

/-- Whether the event is a critical-level log call. -/
def Event.isLogCrit : Event → Bool
  | Event.otLogCritPlat _ => true
  | _ => false

/-- A record as `app_main` declares it: a local variable without initialiser,
here with null in every field. -/
def uninitialisedResource : otCoapResource where
  mUriPath := none
  mHandler := none
  mContext := none
  mNext := none

/-- Decimal rendering without padding, from the positional digits of the number:
most significant digit first, and the single digit zero for zero. -/
def decimalText (n : Nat) : String :=
  if n = 0 then "0" else String.mk ((Nat.digits 10 n).reverse.map Nat.digitChar)

/-- A transport used in worked examples: addresses print as a fixed text, the
response buffer is allocated, and both steps return the given codes. -/
def sampleTransport (initError sendError : otError) : Transport where
  otIp6AddressToString := fun _ => "2001:db8::1"
  otCoapNewMessage := some 7
  otCoapMessageInitResponse := fun _ _ _ _ => initError
  otCoapSendResponse := fun _ _ => sendError

/-- A transport used in worked examples, with two addresses: address 1 prints as
`2001:db8::1` and every other address as `fe80::1`. -/
def twoAddressTransport : Transport where
  otIp6AddressToString := fun a => if a = 1 then "2001:db8::1" else "fe80::1"
  otCoapNewMessage := some 7
  otCoapMessageInitResponse := fun _ _ _ _ => OT_ERROR_NONE
  otCoapSendResponse := fun _ _ => OT_ERROR_NONE

/-- The message info of a request sent by the peer with address 1 from port 5684 and
received on the local socket address 2. -/
def requestInfoFromPeer : otMessageInfo where
  mSockAddr := 2
  mPeerAddr := 1
  mPeerPort := 5684

/-! ## periodic.c and the client loop of esp_ot_cli.c -/

/-- The two traffic classes passed to `sendRequest`. -/
inductive RequestType where
  | Periodic
  | APeriodic
  deriving DecidableEq, Repr

/-- Constants and the tick conversion of `workload.h`, which is not among the
sources: they are parameters of the model. -/
structure Workload where
  PERIODIC_WAIT_TIME : Nat
  MAIN_WAIT_TIME : Nat
  MS_TO_TICKS : Nat → Nat

/-- Calls made by a scheduling loop, in program order. A log call keeps the two
pieces of its format around the `PRIu32` conversion, and the argument. -/
inductive Call where
  | otCoapSecureIsConnected (result : Bool)
  | sendRequest (type : RequestType)
  | aperiodicWaitTimeMs (result : Nat)
  | otLogNotePlat (formatBefore formatAfter : String) (argument : Nat)
  | xTaskGetTickCount (result : Nat)
  | vTaskDelayUntil (previousWakeTime : Nat) (timeIncrement : Nat)
  | vTaskDelay (ticksToDelay : Nat)
  | clientConnect
  deriving DecidableEq, Repr

/-- What the environment supplies to one pass through a loop body: the answer of
the connectivity query, the ticks that elapse while the body does its work
(sending and logging, or reconnecting), and the value `aperiodicWaitTimeMs`
returns (read by the aperiodic loop only). -/
structure Iteration where
  connected : Bool
  workTicks : Nat
  nextWaitTime : Nat
  deriving DecidableEq, Repr

/-- Width of `TickType_t`. -/
def tickModulus : Nat := 2 ^ 32

/-- The kernel call `xTaskGetTickCount` at absolute time `now` (ticks since boot). -/
def xTaskGetTickCount (now : Nat) : Nat := now % tickModulus

/-- The kernel call `vTaskDelay`, after the FreeRTOS kernel: the task wakes
`xTicksToDelay` ticks later. -/
def vTaskDelay (xTicksToDelay : Nat) (now : Nat) : Nat :=
  now + xTicksToDelay % tickModulus

/-- The kernel call `vTaskDelayUntil`, after the FreeRTOS kernel: the wake tick is
the previous wake time plus the increment, in `TickType_t` arithmetic; the task
blocks until then unless that tick has already passed, with the kernel's two tests
for a tick count that has wrapped. Returns the absolute time at which the task runs
again. The kernel's assertion that the increment is positive is left out: a zero
increment does not block. -/
def vTaskDelayUntil (pxPreviousWakeTime xTimeIncrement : Nat) (now : Nat) : Nat :=
  let xConstTickCount := xTaskGetTickCount now
  let xTimeToWake := (pxPreviousWakeTime + xTimeIncrement % tickModulus) % tickModulus
  let xShouldDelay :=
    if xConstTickCount < pxPreviousWakeTime then
      decide (xTimeToWake < pxPreviousWakeTime ∧ xTimeToWake > xConstTickCount)
    else
      decide (xTimeToWake < pxPreviousWakeTime ∨ xTimeToWake > xConstTickCount)
  if xShouldDelay then
    now + (xTimeToWake + tickModulus - xConstTickCount) % tickModulus
  else now

/-- One pass through the body of the `while (true)` loop of `periodicWorker`,
entered at absolute time `now`: the time at which the pass ends (the task wakes)
and the calls made. -/
def periodicIteration (W : Workload) (it : Iteration) (now : Nat) : Nat × List Call :=
  if it.connected then
    let afterWork := now + it.workTicks
    let lastWakeupTime := xTaskGetTickCount afterWork
    (vTaskDelayUntil lastWakeupTime W.PERIODIC_WAIT_TIME afterWork,
      [Call.otCoapSecureIsConnected true,
       Call.sendRequest RequestType.Periodic,
       Call.otLogNotePlat "Will wait %"
         " ms before sending next the periodic CoAP request."
         W.PERIODIC_WAIT_TIME,
       Call.xTaskGetTickCount lastWakeupTime,
       Call.vTaskDelayUntil lastWakeupTime W.PERIODIC_WAIT_TIME])
  else
    (vTaskDelay W.MAIN_WAIT_TIME now,
      [Call.otCoapSecureIsConnected false, Call.vTaskDelay W.MAIN_WAIT_TIME])

/-- One pass through the body of the `while (true)` loop at the end of `app_main`. -/
def aperiodicIteration (W : Workload) (it : Iteration) (now : Nat) : Nat × List Call :=
  if it.connected then
    let afterWork := now + it.workTicks
    let nextWaitTime := toUInt32 it.nextWaitTime
    let lastWakeupTime := xTaskGetTickCount afterWork
    (vTaskDelayUntil lastWakeupTime (W.MS_TO_TICKS nextWaitTime) afterWork,
      [Call.otCoapSecureIsConnected true,
       Call.sendRequest RequestType.APeriodic,
       Call.aperiodicWaitTimeMs nextWaitTime,
       Call.otLogNotePlat "Will wait %"
         " ms before sending next aperiodic CoAP request."
         nextWaitTime,
       Call.xTaskGetTickCount lastWakeupTime,
       Call.vTaskDelayUntil lastWakeupTime (W.MS_TO_TICKS nextWaitTime)])
  else
    let afterWork := now + it.workTicks
    (vTaskDelay W.MAIN_WAIT_TIME afterWork,
      [Call.otCoapSecureIsConnected false, Call.clientConnect,
       Call.vTaskDelay W.MAIN_WAIT_TIME])

/-- A finite prefix of a `while (true)` loop: one entry per pass, holding the time at
which the pass ended and the calls it made. -/
def runLoop (body : Iteration → Nat → Nat × List Call) :
    List Iteration → Nat → List (Nat × List Call)
  | [], _ => []
  | it :: rest, now => body it now :: runLoop body rest (body it now).1

/-- The loop of `periodicWorker` driven through the given passes from time `now`. -/
def periodicWorker (W : Workload) (its : List Iteration) (now : Nat) :
    List (Nat × List Call) :=
  runLoop (periodicIteration W) its now

/-- The client loop of `app_main` driven through the given passes from time `now`. -/
def appMainLoop (W : Workload) (its : List Iteration) (now : Nat) :
    List (Nat × List Call) :=
  runLoop (aperiodicIteration W) its now

/-- All calls of a run, in order. -/
def callsOf (run : List (Nat × List Call)) : List Call :=
  (run.map Prod.snd).flatten

/-- The wake-up timestamps of a run: the time at which each pass ended. -/
def wakeTimes (run : List (Nat × List Call)) : List Nat :=
  run.map Prod.fst

/-- Whether the call is a `sendRequest`. -/
def Call.isSendRequest : Call → Bool
  | Call.sendRequest _ => true
  | _ => false

/-- Whether the call is a `vTaskDelay`. -/
def Call.isDelay : Call → Bool
  | Call.vTaskDelay _ => true
  | _ => false

/-- Whether the call is the connectivity query. -/
def Call.isConnectedQuery : Call → Bool
  | Call.otCoapSecureIsConnected _ => true
  | _ => false

/-- The increment passed to `vTaskDelayUntil`, when the call is one. -/
def Call.delayUntilIncrement : Call → Option Nat
  | Call.vTaskDelayUntil _ inc => some inc
  | _ => none

/-- The wait a log call reports, when the call is one. -/
def Call.loggedWait : Call → Option Nat
  | Call.otLogNotePlat _ _ arg => some arg
  | _ => none

/-- The wake-up timestamps the specification describes: each one is the previous
one plus that pass's wait. -/
def anchoredWakeTimes : List Nat → Nat → List Nat
  | [], _ => []
  | w :: rest, t => (t + w) :: anchoredWakeTimes rest (t + w)

/-- Sample constants used in worked examples: a period of 100 ticks, an idle
back-off of 50 ticks, and one tick per millisecond. -/
def sampleWorkload : Workload where
  PERIODIC_WAIT_TIME := 100
  MAIN_WAIT_TIME := 50
  MS_TO_TICKS := fun ms => ms

/-! ## aperiodic.c -/

/-- The constant `UINT32_MAX`. -/
def UINT32_MAX : Nat := 4294967295

/-- A value of type `double` (IEEE 754 binary64): one of the three special values,
or a finite value given by the rational number it holds. The two zeros are not told
apart: no step of `aperiodicWaitTime` depends on the sign of a zero. -/
inductive CDouble where
  | nan
  | negInf
  | posInf
  | finite (x : ℚ)
  deriving DecidableEq, Repr

/-- The exponent of the binade a number is rounded in: the largest `e` with
`2 ^ e <= |q|`, and the smallest normal exponent for numbers below it (and for zero). -/
def binade (q : ℚ) : Int := max (Int.log 2 |q|) (-1022)

/-- Rounding to the nearest integer, ties to the even one. -/
def roundHalfEven (x : ℚ) : Int :=
  if x - ⌊x⌋ < 1 / 2 then ⌊x⌋
  else if 1 / 2 < x - ⌊x⌋ then ⌊x⌋ + 1
  else if ⌊x⌋ % 2 = 0 then ⌊x⌋ else ⌊x⌋ + 1

/-- The binary64 result of an operation whose exact result is `q`: round to nearest,
ties to even, to a multiple of the quantum of the binade of `q` (53 significant bits,
gradual underflow), and to an infinity when the rounded magnitude reaches
`2 ^ 1024`. -/
def roundBinary64 (q : ℚ) : CDouble :=
  let quantum : ℚ := 2 ^ (binade q - 52)
  let m : ℚ := (roundHalfEven (q / quantum) : ℚ) * quantum
  if 2 ^ 1024 ≤ |m| then (if 0 < q then CDouble.posInf else CDouble.negInf)
  else CDouble.finite m

/-- The rate `LAMBDA` of `aperiodic.c`: the constant `0.1` as a `double`, that is the
binary64 number nearest to one tenth. -/
def LAMBDA : ℚ := 3602879701896397 / 36028797018963968

/-- The library function `log` of `math.h`. The C standard fixes its special cases:
a pole at zero, a domain error below zero, and infinity at infinity. The rounded
value it returns for a positive finite argument is left to the library, and is the
parameter `libmLog`. -/
def CDouble.log (libmLog : ℚ → CDouble) : CDouble → CDouble
  | CDouble.nan => CDouble.nan
  | CDouble.negInf => CDouble.nan
  | CDouble.posInf => CDouble.posInf
  | CDouble.finite x =>
    if x < 0 then CDouble.nan else if x = 0 then CDouble.negInf else libmLog x

/-- The difference `c - x` of a finite constant and a `double`. -/
def CDouble.constSub (c : ℚ) : CDouble → CDouble
  | CDouble.nan => CDouble.nan
  | CDouble.negInf => CDouble.posInf
  | CDouble.posInf => CDouble.negInf
  | CDouble.finite x => roundBinary64 (c - x)

/-- The product `c * x` of a finite constant and a `double`; zero times an infinity
is not a number. -/
def CDouble.mulConst (c : ℚ) : CDouble → CDouble
  | CDouble.nan => CDouble.nan
  | CDouble.negInf =>
    if c = 0 then CDouble.nan else if c < 0 then CDouble.posInf else CDouble.negInf
  | CDouble.posInf =>
    if c = 0 then CDouble.nan else if c < 0 then CDouble.negInf else CDouble.posInf
  | CDouble.finite x => roundBinary64 (c * x)

/-- The quotient `x / d` of a `double` by a finite constant other than zero. -/
def CDouble.divConst (d : ℚ) : CDouble → CDouble
  | CDouble.nan => CDouble.nan
  | CDouble.negInf => if d < 0 then CDouble.posInf else CDouble.negInf
  | CDouble.posInf => if d < 0 then CDouble.negInf else CDouble.posInf
  | CDouble.finite x => roundBinary64 (x / d)

/-- The local `randomNum`: the 32-bit value of `esp_random` converted to `double`,
which is exact because the value has fewer than 53 bits. -/
def randomNum (r : Nat) : ℚ := (toUInt32 r : ℚ)

/-- The local `normalized`: the quotient of `randomNum` by `UINT32_MAX`, rounded. -/
def normalized (r : Nat) : CDouble := roundBinary64 (randomNum r / (UINT32_MAX : ℚ))

/-- The local `toLn`, the argument of the logarithm. -/
def toLn (r : Nat) : CDouble := CDouble.constSub 1 (normalized r)

/-- The function `aperiodicWaitTime`, for the value `r` drawn from `esp_random` and
the rounded logarithms `libmLog` of the C library. -/
def aperiodicWaitTime (libmLog : ℚ → CDouble) (r : Nat) : CDouble :=
  let lnResult := CDouble.log libmLog (toLn r)
  let numerator := CDouble.mulConst (-1) lnResult
  let result := CDouble.divConst LAMBDA numerator
  result

/-! ## Rendering of numbers -/

/-- The digit loop of the core library yields the positional digits of a positive
number, most significant first. -/
theorem toDigitsCore_eq_digits (fuel : Nat) :
    ∀ (n : Nat) (ds : List Char), n < fuel → 0 < n →
      Nat.toDigitsCore 10 fuel n ds
        = (Nat.digits 10 n).reverse.map Nat.digitChar ++ ds := by
  induction fuel with
  | zero => intro n ds h; omega
  | succ fuel ih =>
    intro n ds hlt hpos
    have hd : Nat.digits 10 n = (n % 10) :: Nat.digits 10 (n / 10) :=
      Nat.digits_def' (by norm_num) hpos
    rw [Nat.toDigitsCore]
    by_cases h0 : n / 10 = 0
    · simp [h0, hd]
    · have h1 : n / 10 < fuel := by omega
      have h2 : 0 < n / 10 := Nat.pos_of_ne_zero h0
      simp only [h0, if_false]
      rw [ih (n / 10) _ h1 h2, hd]
      simp

/-- The text produced for a `PRIu32` conversion is the unpadded decimal text. -/
theorem formatPRIu32_eq_decimalText (n : Nat) : formatPRIu32 n = decimalText n := by
  unfold formatPRIu32 decimalText Nat.repr Nat.toDigits
  by_cases h : n = 0
  · subst h; rfl
  · rw [toDigitsCore_eq_digits (n + 1) n [] (by omega) (Nat.pos_of_ne_zero h)]
    simp [h, List.asString]

/-! ## server.c -/

/-- The payload length is below `2 ^ 16`. -/
theorem getPayloadLength_lt (aMessage : otMessage) : getPayloadLength aMessage < 2 ^ 16 := by
  unfold getPayloadLength
  omega

/-- The critical-level log calls of `sendCoapResponse`. -/
theorem sendCoapResponse_crit (T : Transport) (aRequest : otMessage)
    (aMessageInfo : otMessageInfo) :
    (sendCoapResponse T aRequest aMessageInfo).filter Event.isLogCrit
      = (if T.otCoapMessageInitResponse T.otCoapNewMessage aRequest
            otCoapType.OT_COAP_TYPE_ACKNOWLEDGMENT otCoapCode.OT_COAP_CODE_VALID
            ≠ OT_ERROR_NONE
          then [Event.otLogCritPlat "Failed to create a CoAP response."] else [])
        ++ (if T.otCoapSendResponse T.otCoapNewMessage aMessageInfo ≠ OT_ERROR_NONE
          then [Event.otLogCritPlat "Failed to send a CoAP response."] else []) := by
  by_cases h1 : T.otCoapMessageInitResponse T.otCoapNewMessage aRequest
      otCoapType.OT_COAP_TYPE_ACKNOWLEDGMENT otCoapCode.OT_COAP_CODE_VALID = OT_ERROR_NONE <;>
    by_cases h2 : T.otCoapSendResponse T.otCoapNewMessage aMessageInfo = OT_ERROR_NONE <;>
    simp [sendCoapResponse, h1, h2, Event.isLogCrit, Event.isLogNote, Event.isSendResponse,
      Event.isInitResponse, List.countP_cons]

/-- The note-level log calls of the handler: one, carrying the summary line. -/
theorem periodicRequestHandler_notes (T : Transport) (aMessage : otMessage)
    (aMessageInfo : otMessageInfo) :
    (periodicRequestHandler T aMessage aMessageInfo).filter Event.isLogNote
      = [Event.otLogNotePlat ("Received " ++ formatPRIu32 (getPayloadLength aMessage)
          ++ " bytes from " ++ T.otIp6AddressToString aMessageInfo.mSockAddr ++ ".")] := by
  have hlt := getPayloadLength_lt aMessage
  have hmod : toUInt32 (toUInt32 (getPayloadLength aMessage)) = getPayloadLength aMessage := by
    unfold toUInt32
    omega
  simp only [periodicRequestHandler, printCoapRequest, getSockAddrString, hmod]
  by_cases h1 : T.otCoapMessageInitResponse T.otCoapNewMessage aMessage
      otCoapType.OT_COAP_TYPE_ACKNOWLEDGMENT otCoapCode.OT_COAP_CODE_VALID = OT_ERROR_NONE <;>
    by_cases h2 : T.otCoapSendResponse T.otCoapNewMessage aMessageInfo = OT_ERROR_NONE <;>
    simp [sendCoapResponse, h1, h2, Event.isLogCrit, Event.isLogNote, Event.isSendResponse,
      Event.isInitResponse, List.countP_cons]

/-- C5: every request handled by `periodicRequestHandler` leads to exactly one
`otCoapSendResponse` call, made with the response buffer just allocated and with the
message info of that request, and to exactly one response initialisation, made from
that request message as an acknowledgment with code valid, after which the send
follows; this holds for all error codes the two steps return. -/
theorem periodicRequestHandler_sends_one_ack (T : Transport) (aMessage : otMessage)
    (aMessageInfo : otMessageInfo) :
    (periodicRequestHandler T aMessage aMessageInfo).filter Event.isSendResponse
        = [Event.otCoapSendResponse T.otCoapNewMessage aMessageInfo]
      ∧ (periodicRequestHandler T aMessage aMessageInfo).countP Event.isSendResponse = 1
      ∧ (periodicRequestHandler T aMessage aMessageInfo).filter Event.isInitResponse
        = [Event.otCoapMessageInitResponse T.otCoapNewMessage aMessage
            otCoapType.OT_COAP_TYPE_ACKNOWLEDGMENT otCoapCode.OT_COAP_CODE_VALID]
      ∧ (periodicRequestHandler T aMessage aMessageInfo).filter
          (fun e => e.isInitResponse || e.isSendResponse)
        = [Event.otCoapMessageInitResponse T.otCoapNewMessage aMessage
            otCoapType.OT_COAP_TYPE_ACKNOWLEDGMENT otCoapCode.OT_COAP_CODE_VALID,
           Event.otCoapSendResponse T.otCoapNewMessage aMessageInfo] := by
  simp only [periodicRequestHandler, printCoapRequest]
  by_cases h1 : T.otCoapMessageInitResponse T.otCoapNewMessage aMessage
      otCoapType.OT_COAP_TYPE_ACKNOWLEDGMENT otCoapCode.OT_COAP_CODE_VALID = OT_ERROR_NONE <;>
    by_cases h2 : T.otCoapSendResponse T.otCoapNewMessage aMessageInfo = OT_ERROR_NONE <;>
    simp [sendCoapResponse, h1, h2, Event.isLogCrit, Event.isLogNote, Event.isSendResponse,
      Event.isInitResponse, List.countP_cons]

/-- C6: `printCoapRequest` leaves in its buffer the line `Received N bytes from A.`
with the 32-bit `N` in unpadded decimal and passes that buffer to the note-level log,
once; for 42 and `2001:db8::1` the line reads
`Received 42 bytes from 2001:db8::1.`. The handler makes one note-level log call per
request, but the address it prints is that of the `mSockAddr` field, the local
socket address, whatever the peer: a request of 42 bytes sent by `2001:db8::1` and
received on `fe80::1` is logged as `Received 42 bytes from fe80::1.`. -/
theorem periodicRequestHandler_logs_socket_address :
    (∀ (N : Nat) (A : String), printCoapRequest N A
        = ("Received " ++ decimalText (toUInt32 N) ++ " bytes from " ++ A ++ ".",
           [Event.otLogNotePlat
             ("Received " ++ decimalText (toUInt32 N) ++ " bytes from " ++ A ++ ".")]))
      ∧ printCoapRequest 42 "2001:db8::1"
        = ("Received 42 bytes from 2001:db8::1.",
           [Event.otLogNotePlat "Received 42 bytes from 2001:db8::1."])
      ∧ twoAddressTransport.otIp6AddressToString requestInfoFromPeer.mPeerAddr
        = "2001:db8::1"
      ∧ getPayloadLength ⟨1, 50, 8⟩ = 42
      ∧ (periodicRequestHandler twoAddressTransport ⟨1, 50, 8⟩
            requestInfoFromPeer).filter Event.isLogNote
        = [Event.otLogNotePlat "Received 42 bytes from fe80::1."]
      ∧ (∀ (T : Transport) (aMessage : otMessage) (aMessageInfo : otMessageInfo)
          (peer : otIp6Address),
          (periodicRequestHandler T aMessage
              { aMessageInfo with mPeerAddr := peer }).filter Event.isLogNote
            = (periodicRequestHandler T aMessage aMessageInfo).filter
                Event.isLogNote) := by
  refine ⟨?_, by decide, by decide, by decide, ?_, ?_⟩
  · intro N A
    simp [printCoapRequest, formatPRIu32_eq_decimalText]
  · rw [periodicRequestHandler_notes]
    decide
  · intro T aMessage aMessageInfo peer
    rw [periodicRequestHandler_notes, periodicRequestHandler_notes]

/-- C8: `sendCoapResponse` logs `Failed to create a CoAP response.` at critical level
exactly when response initialisation returns an error, logs
`Failed to send a CoAP response.` at critical level exactly when the send returns an
error, makes no critical log call when both succeed, and in every case the send is
attempted and the handler runs to its end: its calls are those of the print step
followed by all calls of `sendCoapResponse`. -/
theorem sendCoapResponse_logs_failures (T : Transport) (aRequest : otMessage)
    (aMessageInfo : otMessageInfo) :
    (Event.otLogCritPlat "Failed to create a CoAP response."
          ∈ sendCoapResponse T aRequest aMessageInfo
        ↔ T.otCoapMessageInitResponse T.otCoapNewMessage aRequest
            otCoapType.OT_COAP_TYPE_ACKNOWLEDGMENT otCoapCode.OT_COAP_CODE_VALID
          ≠ OT_ERROR_NONE)
      ∧ (Event.otLogCritPlat "Failed to send a CoAP response."
          ∈ sendCoapResponse T aRequest aMessageInfo
        ↔ T.otCoapSendResponse T.otCoapNewMessage aMessageInfo ≠ OT_ERROR_NONE)
      ∧ (T.otCoapMessageInitResponse T.otCoapNewMessage aRequest
            otCoapType.OT_COAP_TYPE_ACKNOWLEDGMENT otCoapCode.OT_COAP_CODE_VALID
            = OT_ERROR_NONE
          → T.otCoapSendResponse T.otCoapNewMessage aMessageInfo = OT_ERROR_NONE
          → (sendCoapResponse T aRequest aMessageInfo).filter Event.isLogCrit = [])
      ∧ (sendCoapResponse T aRequest aMessageInfo).filter Event.isLogCrit
        = (if T.otCoapMessageInitResponse T.otCoapNewMessage aRequest
              otCoapType.OT_COAP_TYPE_ACKNOWLEDGMENT otCoapCode.OT_COAP_CODE_VALID
              ≠ OT_ERROR_NONE
            then [Event.otLogCritPlat "Failed to create a CoAP response."] else [])
          ++ (if T.otCoapSendResponse T.otCoapNewMessage aMessageInfo ≠ OT_ERROR_NONE
            then [Event.otLogCritPlat "Failed to send a CoAP response."] else [])
      ∧ periodicRequestHandler T aRequest aMessageInfo
        = (printCoapRequest (toUInt32 (getPayloadLength aRequest))
            (getSockAddrString T aMessageInfo)).2
          ++ sendCoapResponse T aRequest aMessageInfo := by
  refine ⟨?_, ?_, ?_, sendCoapResponse_crit T aRequest aMessageInfo, rfl⟩
  ·
    by_cases h1 : T.otCoapMessageInitResponse T.otCoapNewMessage aRequest
        otCoapType.OT_COAP_TYPE_ACKNOWLEDGMENT otCoapCode.OT_COAP_CODE_VALID = OT_ERROR_NONE <;>
      by_cases h2 : T.otCoapSendResponse T.otCoapNewMessage aMessageInfo = OT_ERROR_NONE <;>
      simp [sendCoapResponse, h1, h2, Event.isLogCrit, Event.isLogNote, Event.isSendResponse,
        Event.isInitResponse, List.countP_cons]
  ·
    by_cases h1 : T.otCoapMessageInitResponse T.otCoapNewMessage aRequest
        otCoapType.OT_COAP_TYPE_ACKNOWLEDGMENT otCoapCode.OT_COAP_CODE_VALID = OT_ERROR_NONE <;>
      by_cases h2 : T.otCoapSendResponse T.otCoapNewMessage aMessageInfo = OT_ERROR_NONE <;>
      simp [sendCoapResponse, h1, h2, Event.isLogCrit, Event.isLogNote, Event.isSendResponse,
        Event.isInitResponse, List.countP_cons]
  · intro h1 h2
    rw [sendCoapResponse_crit]
    simp [h1, h2]

/-- Worked instance for C8: with both steps succeeding no
critical log call is made. -/
theorem sendCoapResponse_logs_failures_witness :
    (sendCoapResponse (sampleTransport 0 0) ⟨1, 50, 8⟩ ⟨1, 2, 3⟩).filter Event.isLogCrit
      = [] :=
  (sendCoapResponse_logs_failures (sampleTransport 0 0) ⟨1, 50, 8⟩ ⟨1, 2, 3⟩).2.2.1
    rfl rfl

/-- C10: with `L` the 16-bit length and `O` the 16-bit offset of a message,
`getPayloadLength` returns `L - O` whenever `O <= L`; in general it returns
`(L - O) mod 2 ^ 16`, a value below 65536; and that value is the number the handler
puts in its summary line. -/
theorem getPayloadLength_spec (aMessage : otMessage) :
    (otMessageGetOffset aMessage ≤ otMessageGetLength aMessage →
        getPayloadLength aMessage
          = otMessageGetLength aMessage - otMessageGetOffset aMessage)
      ∧ (getPayloadLength aMessage : Int)
        = ((otMessageGetLength aMessage : Int) - (otMessageGetOffset aMessage : Int))
            % 2 ^ 16
      ∧ getPayloadLength aMessage < 65536
      ∧ ∀ (T : Transport) (aMessageInfo : otMessageInfo),
          (periodicRequestHandler T aMessage aMessageInfo).filter Event.isLogNote
            = [Event.otLogNotePlat ("Received " ++ decimalText (getPayloadLength aMessage)
                ++ " bytes from " ++ T.otIp6AddressToString aMessageInfo.mSockAddr
                ++ ".")] := by
  refine ⟨?_, ?_, getPayloadLength_lt aMessage, ?_⟩
  · intro h
    unfold getPayloadLength
    have h1 : otMessageGetLength aMessage < 2 ^ 16 := Nat.mod_lt _ (by norm_num)
    omega
  · unfold getPayloadLength
    omega
  · intro T aMessageInfo
    rw [periodicRequestHandler_notes, formatPRIu32_eq_decimalText]

/-- Worked instance for C10: a message of length 50 whose payload starts
at offset 8 has a payload of 42 bytes. -/
theorem getPayloadLength_spec_witness :
    otMessageGetOffset ⟨1, 50, 8⟩ ≤ otMessageGetLength ⟨1, 50, 8⟩
      ∧ getPayloadLength ⟨1, 50, 8⟩ = 42 :=
  ⟨by decide, ((getPayloadLength_spec ⟨1, 50, 8⟩).1 (by decide)).trans (by decide)⟩

/-- C7: `createPeriodicResource` fills every field (path `periodic`, handler
`periodicRequestHandler`, context and next null) and returns `OT_ERROR_NONE`, while
`createAPeriodicResource` returns `OT_ERROR_NONE` and leaves the record it is given
as it was: for the record `app_main` passes, the path afterwards is not `aperiodic`
and no handler is installed. -/
theorem createAPeriodicResource_leaves_record :
    (∀ r : otCoapResource, createPeriodicResource r
        = ({ mUriPath := some "periodic",
             mHandler := some otCoapRequestHandler.periodicRequestHandler,
             mContext := none, mNext := none }, OT_ERROR_NONE))
      ∧ (∀ r : otCoapResource, createAPeriodicResource r = (r, OT_ERROR_NONE))
      ∧ (createAPeriodicResource uninitialisedResource).2 = OT_ERROR_NONE
      ∧ (createAPeriodicResource uninitialisedResource).1.mUriPath ≠ some "aperiodic"
      ∧ (createAPeriodicResource uninitialisedResource).1.mHandler = none := by
  refine ⟨fun r => rfl, fun r => rfl, rfl, ?_, rfl⟩
  simp [createAPeriodicResource, uninitialisedResource]

/-! ## periodic.c and the client loop of esp_ot_cli.c -/

/-- Called with the tick count just read, `vTaskDelayUntil` wakes the task the
increment later, counted from that moment. -/
theorem vTaskDelayUntil_from_now (xTimeIncrement now : Nat) :
    vTaskDelayUntil (xTaskGetTickCount now) xTimeIncrement now
      = now + xTimeIncrement % tickModulus := by
  unfold vTaskDelayUntil xTaskGetTickCount tickModulus
  simp only [lt_self_iff_false, if_false]
  split_ifs with h
  · simp only [decide_eq_true_eq] at h
    omega
  · simp only [decide_eq_true_eq] at h
    omega

/-- A connected pass of `periodicWorker` ends its wait the configured period after
the work of the pass has finished. -/
theorem periodicIteration_connected_wake (W : Workload) (workTicks nextWaitTime now : Nat) :
    (periodicIteration W ⟨true, workTicks, nextWaitTime⟩ now).1
      = now + workTicks + W.PERIODIC_WAIT_TIME % tickModulus := by
  simp [periodicIteration, vTaskDelayUntil_from_now]

/-- A connected pass of the client loop ends its wait the drawn time after the work
of the pass has finished. -/
theorem aperiodicIteration_connected_wake (W : Workload)
    (workTicks nextWaitTime now : Nat) :
    (aperiodicIteration W ⟨true, workTicks, nextWaitTime⟩ now).1
      = now + workTicks + W.MS_TO_TICKS (toUInt32 nextWaitTime) % tickModulus := by
  simp [aperiodicIteration, vTaskDelayUntil_from_now]

/-- The calls of a run are those of its first pass followed by those of the rest. -/
theorem callsOf_runLoop_cons (body : Iteration → Nat → Nat × List Call) (it : Iteration)
    (rest : List Iteration) (now : Nat) :
    callsOf (runLoop body (it :: rest) now)
      = (body it now).2 ++ callsOf (runLoop body rest (body it now).1) := by
  simp [callsOf, runLoop]

/-- The calls of a disconnected pass of `periodicWorker`. -/
theorem periodicIteration_disconnected (W : Workload) (it : Iteration) (now : Nat)
    (h : it.connected = false) :
    (periodicIteration W it now).2
      = [Call.otCoapSecureIsConnected false, Call.vTaskDelay W.MAIN_WAIT_TIME] := by
  simp [periodicIteration, h]

/-- The calls of a disconnected pass of the client loop. -/
theorem aperiodicIteration_disconnected (W : Workload) (it : Iteration) (now : Nat)
    (h : it.connected = false) :
    (aperiodicIteration W it now).2
      = [Call.otCoapSecureIsConnected false, Call.clientConnect,
         Call.vTaskDelay W.MAIN_WAIT_TIME] := by
  simp [aperiodicIteration, h]

/-- While every poll fails, `periodicWorker` only polls and backs off. -/
theorem periodicWorker_disconnected_calls (W : Workload) :
    ∀ (its : List Iteration) (now : Nat), (∀ it ∈ its, it.connected = false) →
      callsOf (periodicWorker W its now)
        = (List.replicate its.length
            [Call.otCoapSecureIsConnected false, Call.vTaskDelay W.MAIN_WAIT_TIME]).flatten := by
  intro its
  induction its with
  | nil => intro now _; rfl
  | cons it rest ih =>
    intro now h
    have hit : it.connected = false := h it (List.mem_cons_self _ _)
    have hrest : ∀ x ∈ rest, x.connected = false :=
      fun x hx => h x (List.mem_cons_of_mem _ hx)
    unfold periodicWorker at ih ⊢
    rw [callsOf_runLoop_cons, periodicIteration_disconnected W it now hit, ih _ hrest]
    simp [List.replicate_succ]

/-- While every poll fails, the client loop only polls, reconnects and backs off. -/
theorem appMainLoop_disconnected_calls (W : Workload) :
    ∀ (its : List Iteration) (now : Nat), (∀ it ∈ its, it.connected = false) →
      callsOf (appMainLoop W its now)
        = (List.replicate its.length
            [Call.otCoapSecureIsConnected false, Call.clientConnect,
             Call.vTaskDelay W.MAIN_WAIT_TIME]).flatten := by
  intro its
  induction its with
  | nil => intro now _; rfl
  | cons it rest ih =>
    intro now h
    have hit : it.connected = false := h it (List.mem_cons_self _ _)
    have hrest : ∀ x ∈ rest, x.connected = false :=
      fun x hx => h x (List.mem_cons_of_mem _ hx)
    unfold appMainLoop at ih ⊢
    rw [callsOf_runLoop_cons, aperiodicIteration_disconnected W it now hit, ih _ hrest]
    simp [List.replicate_succ]

/-- Each pass of `periodicWorker` queries connectivity once, with that pass's
answer, and sends exactly when that answer is true. -/
theorem periodicWorker_queries (W : Workload) :
    ∀ (its : List Iteration) (now : Nat),
      (callsOf (periodicWorker W its now)).filter Call.isConnectedQuery
          = its.map (fun it => Call.otCoapSecureIsConnected it.connected)
        ∧ (callsOf (periodicWorker W its now)).countP Call.isSendRequest
          = its.countP (fun it => it.connected) := by
  intro its
  induction its with
  | nil => intro now; exact ⟨rfl, rfl⟩
  | cons it rest ih =>
    intro now
    unfold periodicWorker at ih ⊢
    rw [callsOf_runLoop_cons]
    cases hc : it.connected <;>
      simp [periodicIteration, hc, ih, Call.isConnectedQuery, Call.isSendRequest,
        List.countP_cons]

/-- Each pass of the client loop queries connectivity once, with that pass's answer,
and sends exactly when that answer is true. -/
theorem appMainLoop_queries (W : Workload) :
    ∀ (its : List Iteration) (now : Nat),
      (callsOf (appMainLoop W its now)).filter Call.isConnectedQuery
          = its.map (fun it => Call.otCoapSecureIsConnected it.connected)
        ∧ (callsOf (appMainLoop W its now)).countP Call.isSendRequest
          = its.countP (fun it => it.connected) := by
  intro its
  induction its with
  | nil => intro now; exact ⟨rfl, rfl⟩
  | cons it rest ih =>
    intro now
    unfold appMainLoop at ih ⊢
    rw [callsOf_runLoop_cons]
    cases hc : it.connected <;>
      simp [aperiodicIteration, hc, ih, Call.isConnectedQuery, Call.isSendRequest,
        List.countP_cons]

/-- Counting in a run of passes that all make the same calls. -/
theorem countP_flatten_replicate (p : Call → Bool) (n : Nat) (l : List Call) :
    (List.replicate n l).flatten.countP p = n * l.countP p := by
  induction n with
  | zero => simp
  | succ n ih => simp [List.replicate_succ, ih, Nat.succ_mul, Nat.add_comm]

/-- Filtering a run of passes that all make the same calls, one of which passes the
filter. -/
theorem filter_flatten_replicate (p : Call → Bool) (n : Nat) (l : List Call) (x : Call)
    (h : l.filter p = [x]) :
    (List.replicate n l).flatten.filter p = List.replicate n x := by
  induction n with
  | zero => simp
  | succ n ih => simp [List.replicate_succ, ih, h]

/-- The waits `periodicWorker` passes to `vTaskDelayUntil` and reports in its log. -/
theorem periodicWorker_waits (W : Workload) :
    ∀ (its : List Iteration) (now : Nat),
      (callsOf (periodicWorker W its now)).filterMap Call.delayUntilIncrement
          = List.replicate (its.countP (fun it => it.connected)) W.PERIODIC_WAIT_TIME
        ∧ (callsOf (periodicWorker W its now)).filterMap Call.loggedWait
          = List.replicate (its.countP (fun it => it.connected)) W.PERIODIC_WAIT_TIME := by
  intro its
  induction its with
  | nil => intro now; exact ⟨rfl, rfl⟩
  | cons it rest ih =>
    intro now
    unfold periodicWorker at ih ⊢
    rw [callsOf_runLoop_cons]
    cases hc : it.connected <;>
      simp [periodicIteration, hc, ih, Call.delayUntilIncrement, Call.loggedWait,
        List.countP_cons, List.replicate_succ, List.filterMap_cons, List.filterMap_append]

/-- C3: the wake-up times of both loops depend on the time the work of a pass takes.
From time 1000, with a period of 100 ticks, two connected passes of `periodicWorker`
whose first send takes 7 ticks end at 1107 and 1207, while the anchored sequence is
1100 and 1200 (reached only when the work takes no time); the client loop of
`app_main` behaves the same with a drawn wait of 100. In general a connected pass
ends its wait at the entry time plus the work time plus the wait. -/
theorem wake_time_includes_work_time :
    wakeTimes (periodicWorker sampleWorkload [⟨true, 7, 0⟩, ⟨true, 0, 0⟩] 1000)
        = [1107, 1207]
      ∧ anchoredWakeTimes [100, 100] 1000 = [1100, 1200]
      ∧ wakeTimes (periodicWorker sampleWorkload [⟨true, 0, 0⟩, ⟨true, 0, 0⟩] 1000)
        = [1100, 1200]
      ∧ wakeTimes (appMainLoop sampleWorkload [⟨true, 7, 100⟩, ⟨true, 0, 100⟩] 1000)
        = [1107, 1207]
      ∧ (∀ (W : Workload) (workTicks nextWaitTime now : Nat),
          (periodicIteration W ⟨true, workTicks, nextWaitTime⟩ now).1
            = now + workTicks + W.PERIODIC_WAIT_TIME % tickModulus)
      ∧ (∀ (W : Workload) (workTicks nextWaitTime now : Nat),
          (aperiodicIteration W ⟨true, workTicks, nextWaitTime⟩ now).1
            = now + workTicks + W.MS_TO_TICKS (toUInt32 nextWaitTime) % tickModulus) :=
  ⟨by decide, by decide, by decide, by decide, periodicIteration_connected_wake,
    aperiodicIteration_connected_wake⟩

/-- C4: over any number of consecutive passes in which the connectivity query
answers false, neither loop calls `sendRequest`, each calls `vTaskDelay` with
`MAIN_WAIT_TIME` once per pass and nothing else delays, and each queries
connectivity once per pass; and over arbitrary passes each loop makes one query per
pass, with that pass's own answer, and sends exactly in the passes whose own answer
is true. -/
theorem disconnected_passes_only_back_off (W : Workload) (its : List Iteration)
    (now : Nat) (h : ∀ it ∈ its, it.connected = false) :
    ((callsOf (periodicWorker W its now)).countP Call.isSendRequest = 0
        ∧ (callsOf (periodicWorker W its now)).filter Call.isDelay
          = List.replicate its.length (Call.vTaskDelay W.MAIN_WAIT_TIME)
        ∧ (callsOf (periodicWorker W its now)).countP Call.isDelay = its.length
        ∧ (callsOf (periodicWorker W its now)).countP Call.isConnectedQuery = its.length
        ∧ (callsOf (periodicWorker W its now)).filterMap Call.delayUntilIncrement = [])
      ∧ ((callsOf (appMainLoop W its now)).countP Call.isSendRequest = 0
        ∧ (callsOf (appMainLoop W its now)).filter Call.isDelay
          = List.replicate its.length (Call.vTaskDelay W.MAIN_WAIT_TIME)
        ∧ (callsOf (appMainLoop W its now)).countP Call.isDelay = its.length
        ∧ (callsOf (appMainLoop W its now)).countP Call.isConnectedQuery = its.length
        ∧ (callsOf (appMainLoop W its now)).filterMap Call.delayUntilIncrement = [])
      ∧ (∀ (passes : List Iteration) (t : Nat),
          (callsOf (periodicWorker W passes t)).filter Call.isConnectedQuery
              = passes.map (fun it => Call.otCoapSecureIsConnected it.connected)
            ∧ (callsOf (periodicWorker W passes t)).countP Call.isSendRequest
              = passes.countP (fun it => it.connected))
      ∧ (∀ (passes : List Iteration) (t : Nat),
          (callsOf (appMainLoop W passes t)).filter Call.isConnectedQuery
              = passes.map (fun it => Call.otCoapSecureIsConnected it.connected)
            ∧ (callsOf (appMainLoop W passes t)).countP Call.isSendRequest
              = passes.countP (fun it => it.connected)) := by
  refine ⟨?_, ?_, periodicWorker_queries W, appMainLoop_queries W⟩
  · rw [periodicWorker_disconnected_calls W its now h]
    refine ⟨?_, ?_, ?_, ?_, ?_⟩
    · rw [countP_flatten_replicate]; simp [List.countP_cons, Call.isSendRequest]
    · exact filter_flatten_replicate _ _ _ _ (by simp [Call.isDelay])
    · rw [countP_flatten_replicate]; simp [List.countP_cons, Call.isDelay]
    · rw [countP_flatten_replicate]; simp [List.countP_cons, Call.isConnectedQuery]
    · induction its.length with
      | zero => rfl
      | succ n ih => simp [List.replicate_succ, ih, Call.delayUntilIncrement]
  · rw [appMainLoop_disconnected_calls W its now h]
    refine ⟨?_, ?_, ?_, ?_, ?_⟩
    · rw [countP_flatten_replicate]; simp [List.countP_cons, Call.isSendRequest]
    · exact filter_flatten_replicate _ _ _ _ (by simp [Call.isDelay])
    · rw [countP_flatten_replicate]; simp [List.countP_cons, Call.isDelay]
    · rw [countP_flatten_replicate]; simp [List.countP_cons, Call.isConnectedQuery]
    · induction its.length with
      | zero => rfl
      | succ n ih => simp [List.replicate_succ, ih, Call.delayUntilIncrement]

/-- Worked instance for C4: three failed polls, with
different work times, from time 5. -/
theorem disconnected_passes_only_back_off_witness :
    (∀ it ∈ [(⟨false, 0, 0⟩ : Iteration), ⟨false, 4, 9⟩, ⟨false, 2, 1⟩],
        it.connected = false)
      ∧ (callsOf (periodicWorker sampleWorkload
            [⟨false, 0, 0⟩, ⟨false, 4, 9⟩, ⟨false, 2, 1⟩] 5)).countP Call.isSendRequest = 0
      ∧ (callsOf (periodicWorker sampleWorkload
            [⟨false, 0, 0⟩, ⟨false, 4, 9⟩, ⟨false, 2, 1⟩] 5)).filter Call.isDelay
          = [Call.vTaskDelay 50, Call.vTaskDelay 50, Call.vTaskDelay 50] :=
  ⟨by decide,
    (disconnected_passes_only_back_off sampleWorkload
      [⟨false, 0, 0⟩, ⟨false, 4, 9⟩, ⟨false, 2, 1⟩] 5 (by decide)).1.1,
    (disconnected_passes_only_back_off sampleWorkload
      [⟨false, 0, 0⟩, ⟨false, 4, 9⟩, ⟨false, 2, 1⟩] 5 (by decide)).1.2.1⟩

/-- C9: in `periodicWorker` the increment passed to `vTaskDelayUntil` and the wait
reported in the log are `PERIODIC_WAIT_TIME` in every connected pass, whatever the
position of the pass, the time at which it starts and the time its send takes; a
connected pass makes exactly the calls listed, in that order. -/
theorem periodicWorker_waits_constant (W : Workload) (its : List Iteration) (now : Nat) :
    (callsOf (periodicWorker W its now)).filterMap Call.delayUntilIncrement
        = List.replicate (its.countP (fun it => it.connected)) W.PERIODIC_WAIT_TIME
      ∧ (callsOf (periodicWorker W its now)).filterMap Call.loggedWait
        = List.replicate (its.countP (fun it => it.connected)) W.PERIODIC_WAIT_TIME
      ∧ ∀ (workTicks nextWaitTime t : Nat),
          (periodicIteration W ⟨true, workTicks, nextWaitTime⟩ t).2
            = [Call.otCoapSecureIsConnected true,
               Call.sendRequest RequestType.Periodic,
               Call.otLogNotePlat "Will wait %"
                 " ms before sending next the periodic CoAP request."
                 W.PERIODIC_WAIT_TIME,
               Call.xTaskGetTickCount (xTaskGetTickCount (t + workTicks)),
               Call.vTaskDelayUntil (xTaskGetTickCount (t + workTicks))
                 W.PERIODIC_WAIT_TIME] :=
  ⟨(periodicWorker_waits W its now).1, (periodicWorker_waits W its now).2,
    fun _ _ _ => rfl⟩

/-! ## aperiodic.c -/

/-- The binade of a number lying between two consecutive powers of two. -/
theorem binade_eq (q : ℚ) (e : Int) (h1 : (2 : ℚ) ^ e ≤ |q|)
    (h2 : |q| < (2 : ℚ) ^ (e + 1)) (he : -1022 ≤ e) : binade q = e := by
  have hpos : 0 < |q| := lt_of_lt_of_le (zpow_pos (by norm_num) e) h1
  have hle : e ≤ Int.log 2 |q| :=
    (Int.zpow_le_iff_le_log (by norm_num) hpos).1 (by exact_mod_cast h1)
  have hlt : Int.log 2 |q| < e + 1 :=
    (Int.lt_zpow_iff_log_lt (by norm_num) hpos).1 (by exact_mod_cast h2)
  unfold binade
  omega

/-- An integer rounds to itself. -/
theorem roundHalfEven_intCast (n : Int) : roundHalfEven (n : ℚ) = n := by
  simp [roundHalfEven]

/-- Rounding to an integer never goes below the floor. -/
theorem floor_le_roundHalfEven (x : ℚ) : ⌊x⌋ ≤ roundHalfEven x := by
  unfold roundHalfEven
  split_ifs <;> omega

/-- Rounding to an integer never goes above the floor plus one. -/
theorem roundHalfEven_le_floor_add_one (x : ℚ) : roundHalfEven x ≤ ⌊x⌋ + 1 := by
  unfold roundHalfEven
  split_ifs <;> omega

/-- Zero is a `double`. -/
theorem roundBinary64_zero : roundBinary64 0 = CDouble.finite 0 := by
  simp [roundBinary64, roundHalfEven]

/-- One is a `double`. -/
theorem roundBinary64_one : roundBinary64 1 = CDouble.finite 1 := by
  have hb : binade 1 = 0 := binade_eq 1 0 (by norm_num) (by norm_num) (by norm_num)
  have hq : (1 : ℚ) / 2 ^ ((0 : Int) - 52) = ((4503599627370496 : Int) : ℚ) := by
    norm_num
  unfold roundBinary64
  simp only [hb, hq, roundHalfEven_intCast]
  norm_num

/-- Rounding from the binade, the rounded integer and the finiteness of the result. -/
theorem roundBinary64_eval (q m : ℚ) (e n : Int) (hb : binade q = e)
    (hr : roundHalfEven (q / 2 ^ (e - 52)) = n) (hm : (n : ℚ) * 2 ^ (e - 52) = m)
    (hfin : |m| < 2 ^ 1024) : roundBinary64 q = CDouble.finite m := by
  unfold roundBinary64
  simp only [hb, hr, hm]
  rw [if_neg (not_le.mpr hfin)]

/-- The constant `LAMBDA` is one tenth rounded to binary64. -/
theorem roundBinary64_one_tenth : roundBinary64 (1 / 10) = CDouble.finite LAMBDA := by
  have hb : binade (1 / 10) = -4 :=
    binade_eq _ (-4) (by norm_num [abs_of_pos]) (by norm_num [abs_of_pos]) (by norm_num)
  have hr : roundHalfEven ((1 / 10 : ℚ) / 2 ^ ((-4 : Int) - 52)) = 7205759403792794 := by
    have hf : ⌊(1 / 10 : ℚ) / 2 ^ ((-4 : Int) - 52)⌋ = 7205759403792793 := by
      rw [Int.floor_eq_iff]
      norm_num
    unfold roundHalfEven
    rw [hf]
    norm_num
  refine roundBinary64_eval _ _ _ _ hb hr (by norm_num [LAMBDA]) ?_
  rw [abs_of_pos (by norm_num [LAMBDA])]
  norm_num [LAMBDA]

/-- The draw 2147483648: the quotient rounds to `4294967297 / 8589934592` and the
argument of the logarithm is `4294967295 / 8589934592`. -/
theorem toLn_at_2147483648 :
    normalized 2147483648 = CDouble.finite (4294967297 / 8589934592)
      ∧ toLn 2147483648 = CDouble.finite (4294967295 / 8589934592) := by
  have hn : normalized 2147483648 = CDouble.finite (4294967297 / 8589934592) := by
    have hq : randomNum 2147483648 / (UINT32_MAX : ℚ) = 2147483648 / 4294967295 := by
      norm_num [randomNum, toUInt32, UINT32_MAX]
    have hb : binade (2147483648 / 4294967295) = -1 :=
      binade_eq _ (-1) (by norm_num [abs_of_pos]) (by norm_num [abs_of_pos]) (by norm_num)
    have hr : roundHalfEven ((2147483648 / 4294967295 : ℚ) / 2 ^ ((-1 : Int) - 52))
        = 4503599628419072 := by
      have hf : ⌊(2147483648 / 4294967295 : ℚ) / 2 ^ ((-1 : Int) - 52)⌋
          = 4503599628419072 := by
        rw [Int.floor_eq_iff]
        norm_num
      unfold roundHalfEven
      rw [hf]
      norm_num
    unfold normalized
    rw [hq]
    refine roundBinary64_eval _ _ _ _ hb hr (by norm_num) ?_
    rw [abs_of_pos (by norm_num)]
    norm_num
  refine ⟨hn, ?_⟩
  have hb : binade (1 - 4294967297 / 8589934592) = -2 :=
    binade_eq _ (-2) (by norm_num [abs_of_pos]) (by norm_num [abs_of_pos]) (by norm_num)
  have hr : roundHalfEven ((1 - 4294967297 / 8589934592 : ℚ) / 2 ^ ((-2 : Int) - 52))
      = 9007199252643840 := by
    have hq : (1 - 4294967297 / 8589934592 : ℚ) / 2 ^ ((-2 : Int) - 52)
        = ((9007199252643840 : Int) : ℚ) := by norm_num
    rw [hq, roundHalfEven_intCast]
  unfold toLn
  rw [hn]
  unfold CDouble.constSub
  refine roundBinary64_eval _ _ _ _ hb hr (by norm_num) ?_
  rw [abs_of_pos (by norm_num)]
  norm_num

/-- Rounding a number that is not negative gives a finite number that is not
negative, less than one quantum away. -/
theorem roundBinary64_near (q : ℚ) (hq : 0 ≤ q)
    (hfin : q + 2 ^ (binade q - 52) < 2 ^ 1024) :
    ∃ x : ℚ, roundBinary64 q = CDouble.finite x ∧ 0 ≤ x
      ∧ q - 2 ^ (binade q - 52) < x ∧ x ≤ q + 2 ^ (binade q - 52) := by
  have hQ : (0 : ℚ) < 2 ^ (binade q - 52) := zpow_pos (by norm_num) _
  set Q : ℚ := 2 ^ (binade q - 52) with hQdef
  have hx0 : 0 ≤ q / Q := div_nonneg hq hQ.le
  have hfl0 : (0 : Int) ≤ ⌊q / Q⌋ := Int.floor_nonneg.mpr hx0
  have h1 : ((⌊q / Q⌋ : Int) : ℚ) ≤ ((roundHalfEven (q / Q) : Int) : ℚ) := by
    exact_mod_cast floor_le_roundHalfEven (q / Q)
  have h2 : ((roundHalfEven (q / Q) : Int) : ℚ) ≤ ((⌊q / Q⌋ : Int) : ℚ) + 1 := by
    exact_mod_cast roundHalfEven_le_floor_add_one (q / Q)
  have h3 : ((⌊q / Q⌋ : Int) : ℚ) ≤ q / Q := Int.floor_le _
  have h4 : q / Q < ((⌊q / Q⌋ : Int) : ℚ) + 1 := Int.lt_floor_add_one _
  have h0 : (0 : ℚ) ≤ ((roundHalfEven (q / Q) : Int) : ℚ) := by
    have : (0 : ℚ) ≤ ((⌊q / Q⌋ : Int) : ℚ) := by exact_mod_cast hfl0
    linarith
  have hmul : q / Q * Q = q := div_mul_cancel₀ q hQ.ne'
  have hup : ((roundHalfEven (q / Q) : Int) : ℚ) * Q ≤ q + Q := by
    have : ((roundHalfEven (q / Q) : Int) : ℚ) * Q ≤ (q / Q + 1) * Q :=
      mul_le_mul_of_nonneg_right (by linarith) hQ.le
    rw [add_mul, hmul, one_mul] at this
    exact this
  have hlo : q - Q < ((roundHalfEven (q / Q) : Int) : ℚ) * Q := by
    have : (q / Q - 1) * Q < ((roundHalfEven (q / Q) : Int) : ℚ) * Q :=
      mul_lt_mul_of_pos_right (by linarith) hQ
    rw [sub_mul, hmul, one_mul] at this
    exact this
  have hm0 : 0 ≤ ((roundHalfEven (q / Q) : Int) : ℚ) * Q := mul_nonneg h0 hQ.le
  refine ⟨((roundHalfEven (q / Q) : Int) : ℚ) * Q, ?_, hm0, hlo, hup⟩
  unfold roundBinary64
  simp only [← hQdef]
  rw [if_neg]
  rw [abs_of_nonneg hm0]
  linarith

/-- Between zero and one the quantum is at most `2 ^ (-52)`. -/
theorem quantum_le_of_le_one (q : ℚ) (h0 : 0 ≤ q) (h1 : q ≤ 1) :
    (2 : ℚ) ^ (binade q - 52) ≤ 1 / 4503599627370496 := by
  have hb : binade q ≤ 0 := by
    unfold binade
    rcases eq_or_lt_of_le h0 with h | h
    · rw [← h]; simp
    · have hlt : Int.log 2 |q| < 1 :=
        (Int.lt_zpow_iff_log_lt (by norm_num) (abs_pos.mpr h.ne')).1
          (by rw [abs_of_pos h]; norm_num; linarith)
      omega
  calc (2 : ℚ) ^ (binade q - 52) ≤ 2 ^ (-52 : Int) :=
        zpow_le_zpow_right₀ (by norm_num) (by omega)
    _ = 1 / 4503599627370496 := by norm_num

/-- For every draw below `UINT32_MAX` the normalised value is a finite number in
`[0, 1)`, the argument of the logarithm is a finite positive number, and the result
is the library's logarithm of it, negated and divided by `LAMBDA`. -/
theorem toLn_pos_of_lt (r : Nat) (h : toUInt32 r < UINT32_MAX) :
    ∃ x y : ℚ, normalized r = CDouble.finite x ∧ 0 ≤ x ∧ x < 1
      ∧ toLn r = CDouble.finite y ∧ 0 < y
      ∧ ∀ libmLog : ℚ → CDouble, aperiodicWaitTime libmLog r
          = CDouble.divConst LAMBDA (CDouble.mulConst (-1) (libmLog y)) := by
  have hU : (0 : ℚ) < (UINT32_MAX : ℚ) := by norm_num [UINT32_MAX]
  have hq0 : 0 ≤ randomNum r / (UINT32_MAX : ℚ) :=
    div_nonneg (by unfold randomNum; exact Nat.cast_nonneg _) hU.le
  have hq1 : randomNum r / (UINT32_MAX : ℚ) ≤ 1 - 1 / 4294967295 := by
    have hr : (toUInt32 r : ℚ) + 1 ≤ (UINT32_MAX : ℚ) := by exact_mod_cast h
    have hrhs : (1 - 1 / 4294967295 : ℚ) * (UINT32_MAX : ℚ) = (UINT32_MAX : ℚ) - 1 := by
      norm_num [UINT32_MAX]
    unfold randomNum
    rw [div_le_iff₀ hU, hrhs]
    linarith
  have hQ := quantum_le_of_le_one _ hq0 (by linarith)
  obtain ⟨x, hx, hx0, _, hxup⟩ := roundBinary64_near _ hq0
    (by norm_num at hq1 ⊢; linarith)
  have hx1 : x ≤ 1 - 1 / 4294967295 + 1 / 4503599627370496 := by linarith
  have hxlt : x < 1 := by norm_num at hx1; linarith
  have hy0 : (0 : ℚ) ≤ 1 - x := by linarith
  have hQ2 := quantum_le_of_le_one (1 - x) hy0 (by linarith)
  obtain ⟨y, hy, _, hylo, _⟩ := roundBinary64_near (1 - x) hy0
    (by norm_num at hx1 ⊢; linarith)
  have hypos : 0 < y := by norm_num at hx1; linarith
  have ht : toLn r = CDouble.finite y := by
    simp [toLn, normalized, hx, CDouble.constSub, hy]
  refine ⟨x, y, hx, hx0, hxlt, ht, hypos, ?_⟩
  intro libmLog
  simp [aperiodicWaitTime, ht, CDouble.log, not_lt.mpr hypos.le, hypos.ne']

/-- C1: at the largest value `esp_random` can return, `UINT32_MAX`, the normalised
value is exactly one, the argument of the logarithm is zero, the logarithm is
negative infinity and `aperiodicWaitTime` returns positive infinity, whatever the
C library returns for the logarithms of positive numbers. -/
theorem aperiodicWaitTime_at_UINT32_MAX :
    toUInt32 UINT32_MAX = UINT32_MAX
      ∧ normalized UINT32_MAX = CDouble.finite 1
      ∧ toLn UINT32_MAX = CDouble.finite 0
      ∧ (∀ libmLog : ℚ → CDouble,
          CDouble.log libmLog (toLn UINT32_MAX) = CDouble.negInf)
      ∧ (∀ libmLog : ℚ → CDouble,
          aperiodicWaitTime libmLog UINT32_MAX = CDouble.posInf) := by
  have h1 : toUInt32 UINT32_MAX = UINT32_MAX := by decide
  have h2 : normalized UINT32_MAX = CDouble.finite 1 := by
    unfold normalized randomNum
    rw [h1, div_self (by norm_num [UINT32_MAX]), roundBinary64_one]
  have h3 : toLn UINT32_MAX = CDouble.finite 0 := by
    unfold toLn
    rw [h2]
    simp [CDouble.constSub, roundBinary64_zero]
  have hl : ¬ LAMBDA < 0 := by norm_num [LAMBDA]
  refine ⟨h1, h2, h3, ?_, ?_⟩
  · intro libmLog
    simp [CDouble.log, h3]
  · intro libmLog
    simp [aperiodicWaitTime, CDouble.log, CDouble.mulConst, CDouble.divConst, h3, hl]

end ThroughputFtd
